import Mathlib

/-!
# carctl: migration engine

A shallow embedding of the generic (JFrog) migration orchestrator
(pkg/migrate/generic/migrate.go) and of the two destination index builders
(pkg/api/coding.go), followed by the properties proved about them.

Conventions of the embedding.
* A Go string is a Lean String; the functions of package strings work on its
  list of characters.  For well-formed UTF-8 text a byte prefix is a character
  prefix, and the only separators and cut sets used by the code are ASCII.
* A Go error value is a term of GoError; nil is Option.none.  The two package
  level sentinels are constructors of their own, so comparing with == against a
  sentinel is constructor equality.
* A Go map of type map[string]bool is an association list, the nil map being
  Option.none where the distinction is observable.
* Go int is the 64-bit two's complement integer of the platforms the tool is
  built for: a value of Int, reduced by wrapInt after each arithmetic operation
  (the product pageNumber * pageSize and the increment of pageNumber in the
  numbered pagination are the only ones in the embedded code).
* Calls to the HTTP client and to the open-api executor are answered by functions
  of the calls made before them and of the request, and are recorded in order;
  the results of the other collaborators (lister, credential store, URL parser)
  are parameters.
* Each index builder decodes every reply into the one response allocated before
  its loop.  For the file pages the reply is given by the fields its body
  carries and the decoding is explicit (decodeFileList); for the artifact pages
  the executor gives the response as it stands after the decoding.
* The progress container is outside the repository; of its behaviour the
  embedding keeps the count of increments and whether p.Wait() returns.
* Logging has no effect on any result and is left out.
-/

namespace Carctl

/-! ## Package strings -/

/-- Drop the leading characters that belong to the cut set (strings.TrimLeft). -/
def trimLeftChars (cutset : List Char) (s : List Char) : List Char :=
  s.dropWhile (fun c => cutset.contains c)

/-- Drop the trailing characters that belong to the cut set (strings.TrimRight). -/
def trimRightChars (cutset : List Char) (s : List Char) : List Char :=
  (trimLeftChars cutset s.reverse).reverse

/-- Go strings.Trim(s, cutset): remove leading and trailing characters of the cut set. -/
def stringsTrim (s cutset : String) : String :=
  ⟨trimRightChars cutset.data (trimLeftChars cutset.data s.data)⟩

/-- Go strings.HasPrefix(s, p). -/
def stringsHasPrefix (s p : String) : Bool :=
  p.data.isPrefixOf s.data

/-- Go strings.TrimPrefix(s, p): s without the leading p, or s itself. -/
def stringsTrimPrefix (s p : String) : String :=
  if stringsHasPrefix s p then ⟨s.data.drop p.data.length⟩ else s

/-- Go strings.TrimSuffix(s, p): s without the trailing p, or s itself. -/
def stringsTrimSuffix (s p : String) : String :=
  if p.data.isSuffixOf s.data then ⟨s.data.take (s.data.length - p.data.length)⟩ else s

/-- Split a list of characters at every occurrence of the separator character. -/
def splitChars (sep : Char) : List Char → List (List Char)
  | [] => [[]]
  | c :: cs =>
    if c = sep then [] :: splitChars sep cs
    else match splitChars sep cs with
      | [] => [[c]]
      | seg :: segs => (c :: seg) :: segs

/-- Go strings.Split(s, sep) for a separator of one character, which is how the
code calls it (the separator is the constant "/"). -/
def stringsSplit (s : String) (sep : Char) : List String :=
  (splitChars sep s.data).map String.mk

/-! ## Errors -/

/-- Go error values.  ErrFileConflict is the sentinel declared in migrate.go,
ErrForEachContinue the sentinel of package types; New is a value made by
errors.New or errors.Errorf, Wrap one made by errors.Wrap or errors.Wrapf. -/
inductive GoError where
  | ErrFileConflict : GoError
  | ErrForEachContinue : GoError
  | New (msg : String) : GoError
  | Wrap (cause : GoError) (msg : String) : GoError
  deriving DecidableEq, Repr

/-- The method Error(): the text of an error.  The text of ErrForEachContinue is
declared outside the files at hand and is taken as a parameter. -/
def GoError.Error (continueText : String) : GoError → String
  | .ErrFileConflict => "failed to put file: 409 conflict"
  | .ErrForEachContinue => continueText
  | .New msg => msg
  | .Wrap cause msg => msg ++ ": " ++ GoError.Error continueText cause

/-! ## Settings and collaborators -/

/-- The package level variables of package settings read by the embedded code. -/
structure Settings where
  Src : String
  SrcUsername : String
  SrcPassword : String
  SrcType : String
  Prefix : String
  Force : Bool
  FailFast : Bool
  Verbose : Bool
  deriving DecidableEq, Repr

/-- An HTTP response as far as the code reads it. -/
structure HttpResp where
  StatusCode : Int
  Status : String
  Body : String
  deriving DecidableEq, Repr

/-- One call of the HTTP client: GetWithAuth(url, user, password) or
Put(url, contentType, body, user, password). -/
inductive HttpCall where
  | get (url user password : String) : HttpCall
  | put (url contentType body user password : String) : HttpCall
  deriving DecidableEq, Repr

/-- One file of the JFrog listing.  The type remote.JfrogFile is declared outside
the files at hand: the embedding keeps the field Name and the value returned by
the method GetFilePath. -/
structure JfrogFile where
  Name : String
  FilePath : String
  deriving DecidableEq, Repr

/-- The method GetFilePath of a JFrog file. -/
def JfrogFile.GetFilePath (f : JfrogFile) : String := f.FilePath

/-- The credentials config.AuthConfig of the destination. -/
structure AuthConfig where
  ServerAddress : String
  Username : String
  Password : String
  deriving DecidableEq, Repr

/-- The fields of url.URL read by the code. -/
structure URL where
  Scheme : String
  Path : String
  deriving DecidableEq, Repr

/-- A Go map of type map[string]bool as an association list, the first entry of
a key being the current one. -/
abbrev BoolMap := List (String × Bool)

/-- The map read m[k]: the stored value, false for an absent key. -/
def BoolMap.get (m : BoolMap) (k : String) : Bool :=
  match m.lookup k with
  | some b => b
  | none => false

/-- The map write m[k] = v. -/
def BoolMap.set (m : BoolMap) (k : String) (v : Bool) : BoolMap :=
  (k, v) :: m

/-- The read m[k] of a map that may be nil: a nil map reads false everywhere. -/
def mapIndex (m : Option BoolMap) (k : String) : Bool :=
  match m with
  | none => false
  | some es => es.get k

/-- The collaborators of the orchestrator that live outside the files at hand. -/
structure Env where
  /-- The HTTP client: the answer to a call, given the calls made before it. -/
  respond : List HttpCall → HttpCall → Except GoError HttpResp
  /-- The value of settings.GetDstHasSubSlash(). -/
  DstHasSubSlash : String
  /-- The text of types.ErrForEachContinue. -/
  continueText : String
  /-- The lister remote.FindFileListFromJfrog, by repository name: the field Res
  of its result, or its error. -/
  FindFileListFromJfrog : String → Except GoError (List JfrogFile)
  /-- The error of cfg.RegistryClient.ConfigFile(), none for nil. -/
  ConfigFile : Option GoError
  /-- The result of configFile.GetAuthConfig(settings.Dst). -/
  GetAuthConfig : Except GoError (Bool × AuthConfig)
  /-- The result of api.FindDstRepoArtifactsName for the destination. -/
  FindDstRepoArtifactsName : AuthConfig → Except GoError (Option BoolMap)
  /-- The result of url.Parse. -/
  urlParse : String → Except GoError URL

/-! ## The transfer pipeline -/

/-- Embeds getDownloadUrl. -/
def getDownloadUrl (S : Settings) (filePath : String) : String :=
  let subPath := stringsTrim (stringsTrimPrefix filePath S.Src) "/"
  stringsTrimSuffix S.Src "/" ++ "/" ++ subPath

/-- Embeds getPushUrl. -/
def getPushUrl (S : Settings) (E : Env) (filePath : String) : String :=
  let subPath := stringsTrim (stringsTrimPrefix filePath S.Src) "/"
  E.DstHasSubSlash ++ subPath

/-- Embeds doMigrateJfrogArt.  The first component is the history of HTTP calls
after the transfer, the second the returned error (none for nil). -/
def doMigrateJfrogArt (S : Settings) (E : Env) (hist : List HttpCall)
    (path username password : String) : List HttpCall × Option GoError :=
  let downloadUrl := getDownloadUrl S path
  let pushUrl := getPushUrl S E path
  let getCall := HttpCall.get downloadUrl S.SrcUsername S.SrcPassword
  match E.respond hist getCall with
  | .error err =>
    (hist ++ [getCall], some (.Wrap err ("failed to download from " ++ downloadUrl)))
  | .ok getResp =>
    let putCall := HttpCall.put pushUrl "" getResp.Body username password
    match E.respond (hist ++ [getCall]) putCall with
    | .error err =>
      (hist ++ [getCall, putCall], some (.Wrap err ("failed to push to " ++ pushUrl)))
    | .ok resp =>
      if resp.StatusCode ≥ 400 then
        if resp.StatusCode = 409 then
          (hist ++ [getCall, putCall], some .ErrFileConflict)
        else
          (hist ++ [getCall, putCall],
            some (.New ("got an unexpected response status: " ++ resp.Status)))
      else
        (hist ++ [getCall, putCall], none)

/-! ## The migration report -/

/-- One line of the report: display name, source path, message. -/
structure ReportEntry where
  name : String
  path : String
  message : String
  deriving DecidableEq, Repr

/-- Modelled from the spec: the package report is outside the files at hand.  A
report is three ordered, append-only lists (succeeded, skipped, failed), each
entry being (displayName, sourcePath, message). -/
structure Report where
  SucceededResult : List ReportEntry
  SkippedResult : List ReportEntry
  FailedResult : List ReportEntry
  deriving DecidableEq, Repr

/-- Modelled from the spec: reportutil.NewReport, the empty report. -/
def NewReport : Report := ⟨[], [], []⟩

/-- Modelled from the spec: AddSucceededResult appends to the succeeded list. -/
def Report.AddSucceededResult (r : Report) (name path message : String) : Report :=
  { r with SucceededResult := r.SucceededResult ++ [⟨name, path, message⟩] }

/-- Modelled from the spec: AddSkippedResult appends to the skipped list. -/
def Report.AddSkippedResult (r : Report) (name path message : String) : Report :=
  { r with SkippedResult := r.SkippedResult ++ [⟨name, path, message⟩] }

/-- Modelled from the spec: AddFailedResult appends to the failed list. -/
def Report.AddFailedResult (r : Report) (name path message : String) : Report :=
  { r with FailedResult := r.FailedResult ++ [⟨name, path, message⟩] }

/-! ## The transfer loop -/

/-- The state threaded through the loop of migrateJfrogRepository: the history
of HTTP calls, the count of the progress bar, the report, and the trace of the
calls of doMigrateJfrogArt made so far (the file and the error returned). -/
structure LoopState where
  hist : List HttpCall
  bar : Nat
  report : Report
  attempts : List (JfrogFile × Option GoError)
  deriving DecidableEq, Repr

/-- The state in which migrateJfrogRepository enters its loop. -/
def LoopState.init (hist : List HttpCall) : LoopState :=
  ⟨hist, 0, NewReport, []⟩

/-- The for-range loop of migrateJfrogRepository over the remaining files.  The
second component is the value returned by the function: an early return inside
the loop, or nil after the loop has run to its end. -/
def migrateLoop (S : Settings) (E : Env) (username password : String) :
    List JfrogFile → LoopState → LoopState × Option GoError
  | [], st => (st, none)
  | file :: rest, st =>
    let r := doMigrateJfrogArt S E st.hist file.GetFilePath username password
    let st1 : LoopState :=
      { st with hist := r.1, bar := st.bar + 1, attempts := st.attempts ++ [(file, r.2)] }
    match r.2 with
    | some err =>
      if err = GoError.ErrFileConflict then
        ({ st1 with report :=
            st1.report.AddSkippedResult file.Name file.GetFilePath "409 Conflict" },
          some GoError.ErrForEachContinue)
      else
        let st2 : LoopState :=
          { st1 with report :=
              st1.report.AddFailedResult file.Name file.GetFilePath (err.Error E.continueText) }
        if S.FailFast then
          (st2, some (GoError.Wrap err ("failed to migrate " ++ file.GetFilePath)))
        else
          migrateLoop S E username password rest st2
    | none =>
      migrateLoop S E username password rest
        { st1 with report :=
            st1.report.AddSucceededResult file.Name file.GetFilePath "Succeeded" }

/-- The call p.Wait() of the progress container (package mpb, outside the
repository) returns once its bar is complete.  The bar is added with the total
len(jfrogFileList) and completes when its increments reach a total above 0; a bar
of total 0 never completes, so the call then blocks for ever. -/
def barComplete (total current : Nat) : Bool :=
  decide (0 < total) && decide (total ≤ current)

/-- The result of one call of migrateJfrogRepository. -/
structure RepoRun where
  state : LoopState
  /-- The error value the function returns (none for nil), when it returns. -/
  err : Option GoError
  /-- The report rendered by the deferred call, which runs when the function
  returns, in verbose mode only. -/
  rendered : Option Report
  /-- Whether the function returns: false when it blocks for ever in p.Wait(). -/
  returns : Bool
  deriving DecidableEq, Repr

/-- Embeds migrateJfrogRepository.  Every return from inside the loop carries a
non-nil error, so the loop has run to its end exactly when its value is nil; only
then is p.Wait() reached. -/
def migrateJfrogRepository (S : Settings) (E : Env) (hist : List HttpCall)
    (jfrogFileList : List JfrogFile) (username password : String) : RepoRun :=
  let r := migrateLoop S E username password jfrogFileList (LoopState.init hist)
  let returns : Bool :=
    match r.2 with
    | some _ => true
    | none => barComplete jfrogFileList.length r.1.bar
  ⟨r.1, r.2, if S.Verbose && returns then some r.1.report else none, returns⟩

/-! ## The orchestrator -/

/-- Embeds isNeedMigrate. -/
def isNeedMigrate (filePath : String) (dstExists : Option BoolMap) : Bool :=
  !(mapIndex dstExists (filePath ++ ":latest"))

/-- The prefix filter of MigrateFromJfrog: the value of filesInfo.Res after it. -/
def prefixFilter (S : Settings) (res : List JfrogFile) : List JfrogFile :=
  if S.Prefix.length ≠ 0 then
    res.foldl
      (fun matchFiles f =>
        if stringsHasPrefix f.GetFilePath S.Prefix then matchFiles ++ [f] else matchFiles)
      []
  else res

/-- The existence filter of MigrateFromJfrog: the value of files after it. -/
def existenceFilter (res : List JfrogFile) (dstExists : Option BoolMap) : List JfrogFile :=
  res.foldl
    (fun files f => if isNeedMigrate f.GetFilePath dstExists then files ++ [f] else files)
    []

/-- How a call of a Go function ends: it returns its error value, it panics, or
it blocks for ever. -/
inductive Outcome where
  | returned (err : Option GoError) : Outcome
  | panicked : Outcome
  | blocked : Outcome
  deriving DecidableEq, Repr

/-- What one call of MigrateFromJfrog did: the calls of the lister (by repository
name), the list handed to migrateJfrogRepository if that call was made, the run
of that call, and how the function ended. -/
structure MigrateRun where
  listCalls : List String
  handed : Option (List JfrogFile)
  repo : Option RepoRun
  outcome : Outcome
  deriving DecidableEq, Repr

/-- The text of the error returned for an empty listing. -/
def notFoundText (repository : String) : String :=
  "generic repository: " ++ repository ++
    " file not found or files have been migrated, please check your repository or command"

/-- Embeds MigrateFromJfrog; jfrogPath is the field Path of the source URL. -/
def MigrateFromJfrog (S : Settings) (E : Env) (cfg : AuthConfig) (jfrogPath : String)
    (dstExists : Option BoolMap) : MigrateRun :=
  let urlPathStrs := stringsSplit (stringsTrim jfrogPath "/") '/'
  match urlPathStrs[1]? with
  | none => ⟨[], none, none, .panicked⟩
  | some repository =>
    match E.FindFileListFromJfrog repository with
    | .error err =>
      ⟨[repository], none, none, .returned (some (.Wrap err "failed to get file list"))⟩
    | .ok res0 =>
      let res := prefixFilter S res0
      let files := existenceFilter res dstExists
      if files.length = 0 then
        if res.length > 0 then
          ⟨[repository], none, none, .returned none⟩
        else
          ⟨[repository], none, none, .returned (some (.New (notFoundText repository)))⟩
      else
        let run := migrateJfrogRepository S E [] files cfg.Username cfg.Password
        ⟨[repository], some files, some run,
          if run.returns then .returned run.err else .blocked⟩

/-- Embeds MigrateFromUrl. -/
def MigrateFromUrl (S : Settings) (E : Env) (cfg : AuthConfig) (srcUrl : URL)
    (dstExists : Option BoolMap) : MigrateRun :=
  let S1 : Settings := if S.SrcType = "" then { S with SrcType := "nexus" } else S
  if S1.SrcType = "jfrog" then
    MigrateFromJfrog S1 E cfg srcUrl.Path dstExists
  else
    ⟨[], none, none, .returned (some (.New
      ("This src-type [" ++ S1.SrcType ++ "] is not supported")))⟩

/-- Embeds isLocalRepository. -/
def isLocalRepository (src : String) : Bool :=
  if stringsHasPrefix src "http" then false else true

/-- Embeds Migrate.  The first component is the existence index the function
holds when it dispatches on the source (none for the nil map). -/
def Migrate (S : Settings) (E : Env) : Option BoolMap × MigrateRun :=
  match E.ConfigFile with
  | some err => (none, ⟨[], none, none, .returned (some (.Wrap err "failed to get config file"))⟩)
  | none =>
    match E.GetAuthConfig with
    | .error err =>
      (none, ⟨[], none, none,
        .returned (some (.Wrap err "failed to get registry authorization info"))⟩)
    | .ok (has, authConfig) =>
      if !has then
        (none, ⟨[], none, none, .returned (some (.New
          "Unauthorized: authentication required. Maybe you haven't logged in before."))⟩)
      else
        let indexed : Except GoError (Option BoolMap) :=
          if !S.Force then E.FindDstRepoArtifactsName authConfig else .ok none
        match indexed with
        | .error err =>
          (none, ⟨[], none, none,
            .returned (some (.Wrap err "failed to find dst repo exists artifacts"))⟩)
        | .ok dstExists =>
          if isLocalRepository S.Src then
            (dstExists, ⟨[], none, none,
              .returned (some (.New "unsupported migrate local generic artifacts"))⟩)
          else
            match E.urlParse S.Src with
            | .error err =>
              (dstExists, ⟨[], none, none, .returned (some (.Wrap err "invalid src url"))⟩)
            | .ok srcUrl =>
              let srcUrl1 : URL :=
                if srcUrl.Scheme = "" then { srcUrl with Scheme := "http" } else srcUrl
              (dstExists, MigrateFromUrl S E authConfig srcUrl1 dstExists)

/-! ## The destination existence index (pkg/api/coding.go) -/

/-- The field Error of a response envelope when it is not null. -/
structure RespError where
  Code : String
  Message : String
  deriving DecidableEq, Repr

/-- One instance of a page of DescribeTeamArtifacts. -/
structure ArtifactInstance where
  Package : String
  PackageVersion : String
  deriving DecidableEq, Repr

/-- The field Data of a page of DescribeTeamArtifacts. -/
structure ArtifactsData where
  InstanceSet : List ArtifactInstance
  TotalCount : Int
  deriving DecidableEq, Repr

/-- The field Response of DescribeTeamArtifactsResp, as held by resp after one
call of execute. -/
structure ArtifactsResponse where
  Error : Option RespError
  Data : ArtifactsData
  deriving DecidableEq, Repr

/-- One instance of a page of DescribeArtifactRepositoryFileList. -/
structure RepoFile where
  Path : String
  deriving DecidableEq, Repr

/-- The field Data of a page of DescribeArtifactRepositoryFileList. -/
structure FileListData where
  InstanceSet : List RepoFile
  ContinuationToken : String
  deriving DecidableEq, Repr

/-- The field Response of DescribeRepoFileListResp, as held by resp after one
call of execute. -/
structure FileListResponse where
  Error : Option RespError
  Data : FileListData
  deriving DecidableEq, Repr

/-- What one call of an index builder did: the returned map (none for nil), the
returned error (none for nil) and the requests sent, in order, each given by its
page number or continuation token. -/
structure IndexRun (Req : Type) where
  result : Option BoolMap
  err : Option GoError
  requests : List Req
  deriving DecidableEq, Repr

/-- The value of a 64-bit Go int after an arithmetic operation whose exact result
is x: x reduced modulo 2^64 into the range from -2^63 to 2^63 - 1. -/
def wrapInt (x : Int) : Int :=
  (x + 9223372036854775808) % 18446744073709551616 - 9223372036854775808

/-- The key of an artifact instance: fmt.Sprintf("%s:%s", Package, PackageVersion). -/
def artifactKey (inst : ArtifactInstance) : String :=
  inst.Package ++ ":" ++ inst.PackageVersion

/-- The loop of FindDstExistsArtifacts.  The executor answers a request from the
number of requests sent before it and its page number, its answer being the
response held by resp once the reply has been decoded into it; fuel bounds the
number of iterations, none meaning that the loop has not ended within it. -/
def artifactsLoop (exec : Nat → Int → Except GoError ArtifactsResponse) :
    Nat → Int → BoolMap → List Int → Option (IndexRun Int)
  | 0, _, _, _ => none
  | fuel + 1, pageNumber, result, reqs =>
    let pageSize : Int := 1000
    match exec reqs.length pageNumber with
    | .error err => some ⟨none, some err, reqs ++ [pageNumber]⟩
    | .ok respRsl =>
      match respRsl.Error with
      | some e =>
        some ⟨some result,
          some (.New ("failed to find exists artifacts: " ++ e.Code ++ ", " ++ e.Message)),
          reqs ++ [pageNumber]⟩
      | none =>
        let result1 :=
          respRsl.Data.InstanceSet.foldl (fun m inst => m.set (artifactKey inst) true)
            result
        if wrapInt (pageNumber * pageSize) > respRsl.Data.TotalCount then
          some ⟨some result1, none, reqs ++ [pageNumber]⟩
        else
          artifactsLoop exec fuel (wrapInt (pageNumber + 1)) result1 (reqs ++ [pageNumber])

/-- Embeds FindDstExistsArtifacts; parsed is the result of parseDst (the open-api
URL, the project and the repository). -/
def FindDstExistsArtifacts (parsed : Except GoError (String × String × String))
    (exec : Nat → Int → Except GoError ArtifactsResponse) (fuel : Nat) :
    Option (IndexRun Int) :=
  match parsed with
  | .error err => some ⟨none, some err, []⟩
  | .ok _ => artifactsLoop exec fuel 1 [] []

/-- The reply of one call of execute for a page of files, as json.Unmarshal reads
its body: the query-level error if the body carries one, and each of the fields
InstanceSet and ContinuationToken if the body carries it (none for a field the
body omits; a null instance list reads as the empty list, a null token as an
omitted one). -/
structure FileListBody where
  Error : Option RespError
  InstanceSet : Option (List RepoFile)
  ContinuationToken : Option String
  deriving DecidableEq, Repr

/-- The effect of json.Unmarshal(bodyBytes, resp) on the response held by resp:
the fields the body carries are overwritten, the fields it omits keep the value
they had before the call. -/
def decodeFileList (resp : FileListResponse) (body : FileListBody) : FileListResponse :=
  ⟨match body.Error with
    | some e => some e
    | none => resp.Error,
   ⟨match body.InstanceSet with
      | some instances => instances
      | none => resp.Data.InstanceSet,
    match body.ContinuationToken with
      | some token => token
      | none => resp.Data.ContinuationToken⟩⟩

/-- The loop of FindDstExistsFiles.  The executor answers a request from the
number of requests sent before it and its continuation token; the one response
resp allocated before the loop is threaded through the iterations, each call of
execute decoding its reply into it. -/
def filesLoop (exec : Nat → String → Except GoError FileListBody) :
    Nat → String → BoolMap → List String → FileListResponse → Option (IndexRun String)
  | 0, _, _, _, _ => none
  | fuel + 1, continuationToken, data, reqs, resp =>
    match exec reqs.length continuationToken with
    | .error err => some ⟨none, some err, reqs ++ [continuationToken]⟩
    | .ok body =>
      let respRsl := decodeFileList resp body
      match respRsl.Error with
      | some e =>
        some ⟨some data, some (.New ("failed to find exists files: " ++ e.Code)),
          reqs ++ [continuationToken]⟩
      | none =>
        let respData := respRsl.Data
        if respData.InstanceSet.length = 0 then
          some ⟨some data, none, reqs ++ [continuationToken]⟩
        else
          let data1 := respData.InstanceSet.foldl (fun m f => m.set f.Path true) data
          if respData.ContinuationToken.length = 0 then
            some ⟨some data1, none, reqs ++ [continuationToken]⟩
          else
            filesLoop exec fuel respData.ContinuationToken data1 (reqs ++ [continuationToken])
              respRsl

/-- Embeds FindDstExistsFiles; parsed is the result of parseDst.  The response
resp starts as the zero value of its type. -/
def FindDstExistsFiles (parsed : Except GoError (String × String × String))
    (exec : Nat → String → Except GoError FileListBody) (fuel : Nat) :
    Option (IndexRun String) :=
  match parsed with
  | .error err => some ⟨none, some err, []⟩
  | .ok _ => filesLoop exec fuel "" [] [] ⟨none, ⟨[], ""⟩⟩

/-! ## Auxiliary definitions used to state the properties -/

/-- The download request of the transfer of one path. -/
def downloadCall (S : Settings) (path : String) : HttpCall :=
  .get (getDownloadUrl S path) S.SrcUsername S.SrcPassword

/-- The upload request of the transfer of one path, for a downloaded body. -/
def pushCall (S : Settings) (E : Env) (path body username password : String) : HttpCall :=
  .put (getPushUrl S E path) "" body username password

/-- The body of a reply that carries a page in full: its error if any, its
instance list and its continuation token. -/
def explicitBody (page : FileListResponse) : FileListBody :=
  ⟨page.Error, some page.Data.InstanceSet, some page.Data.ContinuationToken⟩

/-- The same collaborators, except that every successful download response
carries the given status code and status text (body unchanged). -/
def withGetStatus (E : Env) (code : Int) (status : String) : Env :=
  { E with respond := fun h c =>
      match c with
      | .get _ _ _ =>
        match E.respond h c with
        | .ok r => .ok { r with StatusCode := code, Status := status }
        | .error err => .error err
      | .put _ _ _ _ _ => E.respond h c }

/-- The URLs of the download requests of a history of HTTP calls, in order. -/
def downloadsOf : List HttpCall → List String
  | [] => []
  | .get url _ _ :: rest => url :: downloadsOf rest
  | .put _ _ _ _ _ :: rest => downloadsOf rest

/-- The report entry of a succeeded file. -/
def succeededEntry (f : JfrogFile) : ReportEntry :=
  ⟨f.Name, f.GetFilePath, "Succeeded"⟩

/-- The report entry of a failed file. -/
def failedEntry (E : Env) (f : JfrogFile) (e : GoError) : ReportEntry :=
  ⟨f.Name, f.GetFilePath, e.Error E.continueText⟩

/-- The work list of one run: the files of the listing, in order and with their
duplicates, whose path starts with the prefix and whose key path:latest does not
read true in the existence index. -/
def workList (S : Settings) (listing : List JfrogFile) (dstExists : Option BoolMap) :
    List JfrogFile :=
  listing.filter
    (fun f => stringsHasPrefix f.GetFilePath S.Prefix &&
      !(mapIndex dstExists (f.GetFilePath ++ ":latest")))

/-- The page numbers 1, 2, ..., n. -/
def pageNumbers (n : Nat) : List Int :=
  (List.range n).map (fun (i : Nat) => (i : Int) + 1)

/-- The number floor(T/1000)+1 for a total count T that is not negative (and 1
for a negative one). -/
def pageCount (T : Int) : Nat :=
  (T / 1000).toNat + 1

/-! ## Concrete runs -/

/-- Settings with an empty source root, source kind jfrog and no prefix. -/
def exSettings (failFast : Bool) : Settings :=
  ⟨"", "", "", "jfrog", "", false, failFast, false⟩

/-- Collaborators for concrete runs: every download answers 200, every upload
answers the status given for its URL, the destination root is dst/ and the lister
returns the given listing. -/
def exEnv (listing : List JfrogFile) (status : String → Int) : Env where
  respond := fun _ c =>
    match c with
    | .get _ _ _ => .ok ⟨200, "200 OK", "bytes"⟩
    | .put url _ _ _ _ => .ok ⟨status url, "status", ""⟩
  DstHasSubSlash := "dst/"
  continueText := "continue"
  FindFileListFromJfrog := fun _ => .ok listing
  ConfigFile := none
  GetAuthConfig := .ok (true, ⟨"dst", "user", "secret"⟩)
  FindDstRepoArtifactsName := fun _ => .ok none
  urlParse := fun src => .ok ⟨"http", src⟩

/-- The settings of exSettings with fail-fast off and the given path prefix. -/
def exSettingsWith (pfx : String) : Settings :=
  ⟨"", "", "", "jfrog", pfx, false, false, false⟩

/-- An existence index that holds the key of b.jar only. -/
def exIndexB : Option BoolMap := some [("b.jar:latest", true)]

/-- An existence index that holds the keys of a.jar, b.jar and c.jar. -/
def exIndexAll : Option BoolMap :=
  some [("a.jar:latest", true), ("b.jar:latest", true), ("c.jar:latest", true)]

/-- Credentials of the destination for concrete runs. -/
def exCfg : AuthConfig := ⟨"dst", "user", "secret"⟩

/-- Every upload answers 201. -/
def allCreated (_ : String) : Int := 201

/-- The file named by its path. -/
def exFile (path : String) : JfrogFile := ⟨path, path⟩

/-- Three files a.jar, b.jar, c.jar. -/
def exFiles : List JfrogFile := [exFile "a.jar", exFile "b.jar", exFile "c.jar"]

/-- The upload of b.jar answers 409, every other upload 201. -/
def conflictAtB (url : String) : Int := if url = "dst/b.jar" then 409 else 201

/-- The upload of a.jar answers 409, every other upload 201. -/
def conflictAtA (url : String) : Int := if url = "dst/a.jar" then 409 else 201

/-- The upload of b.jar answers 500, every other upload 201. -/
def failureAtB (url : String) : Int := if url = "dst/b.jar" then 500 else 201

/-- Three pages of one instance each, every page reporting the total count 2500. -/
def exArtifactsPage (n : Nat) : ArtifactsResponse :=
  ⟨none, ⟨[⟨"pkg", if n = 1 then "v1" else if n = 2 then "v2" else "v3"⟩], 2500⟩⟩

/-- The executor that answers page number n with exArtifactsPage n. -/
def exArtifactsExec (_ : Nat) (pageNumber : Int) : Except GoError ArtifactsResponse :=
  .ok (exArtifactsPage pageNumber.toNat)

/-- The executor whose every page is error-free, has no instance and reports the
largest total count a 64-bit int can hold. -/
def maxTotalExec (_ : Nat) (_ : Int) : Except GoError ArtifactsResponse :=
  .ok ⟨none, ⟨[], 9223372036854775807⟩⟩

/-- Four file pages with instances and tokens t1, ..., t4. -/
def exFilePages : List FileListResponse :=
  [⟨none, ⟨[⟨"p1"⟩], "t1"⟩⟩, ⟨none, ⟨[⟨"p2"⟩], "t2"⟩⟩, ⟨none, ⟨[⟨"p3"⟩], "t3"⟩⟩,
    ⟨none, ⟨[⟨"p4"⟩], "t4"⟩⟩]

/-- An empty last page. -/
def exLastFilePage : FileListResponse := ⟨none, ⟨[], ""⟩⟩

/-- The executor that answers the request number i with page i of exFilePages,
and with the empty page after them, every reply carrying both fields. -/
def exFilesExec (i : Nat) (_ : String) : Except GoError FileListBody :=
  .ok (explicitBody ((exFilePages ++ [exLastFilePage])[i]?.getD exLastFilePage))

/-- The executor whose first reply holds the path p1 with token t1 and whose every
later reply is an error-free page without instances and without token, its body
omitting both fields. -/
def omittedFieldsExec (i : Nat) (_ : String) : Except GoError FileListBody :=
  if i = 0 then .ok ⟨none, some [⟨"p1"⟩], some "t1"⟩
  else .ok ⟨none, none, none⟩

/-- The continuation tokens of a list of pages. -/
def tokensOf (pages : List FileListResponse) : List String :=
  pages.map (fun p => p.Data.ContinuationToken)

/-- The executor whose first artifact page holds pkg:v1 with total count 2500 and
whose second page carries a query-level error. -/
def errorAtSecondArtifactsExec (_ : Nat) (pageNumber : Int) :
    Except GoError ArtifactsResponse :=
  if pageNumber = 1 then .ok ⟨none, ⟨[⟨"pkg", "v1"⟩], 2500⟩⟩
  else .ok ⟨some ⟨"InternalError", "query failed"⟩, ⟨[], 0⟩⟩

/-- The executor whose first file page holds the path p1 with token t1 and whose
second page carries a query-level error. -/
def errorAtSecondFilesExec (i : Nat) (_ : String) : Except GoError FileListBody :=
  if i = 0 then .ok ⟨none, some [⟨"p1"⟩], some "t1"⟩
  else .ok ⟨some ⟨"InternalError", "query failed"⟩, none, none⟩

/-! ## Properties -/

theorem downloadsOf_append (h1 h2 : List HttpCall) :
    downloadsOf (h1 ++ h2) = downloadsOf h1 ++ downloadsOf h2 := by
  induction h1 with
  | nil => rfl
  | cons c rest ih =>
    cases c <;> simp [downloadsOf, ih]

theorem doMigrateJfrogArt_downloads (S : Settings) (E : Env) (hist : List HttpCall)
    (path username password : String) :
    downloadsOf (doMigrateJfrogArt S E hist path username password).1 =
      downloadsOf hist ++ [getDownloadUrl S path] := by
  unfold doMigrateJfrogArt
  simp only
  split
  · simp [downloadsOf_append, downloadsOf]
  · split
    · simp [downloadsOf_append, downloadsOf]
    · split
      · split <;> simp [downloadsOf_append, downloadsOf]
      · simp [downloadsOf_append, downloadsOf]

theorem migrateLoop_ok (S : Settings) (E : Env) (username password : String)
    (file : JfrogFile) (rest : List JfrogFile) (st : LoopState)
    (h : (doMigrateJfrogArt S E st.hist file.GetFilePath username password).2 = none) :
    migrateLoop S E username password (file :: rest) st =
      migrateLoop S E username password rest
        ⟨(doMigrateJfrogArt S E st.hist file.GetFilePath username password).1, st.bar + 1,
          st.report.AddSucceededResult file.Name file.GetFilePath "Succeeded",
          st.attempts ++ [(file, none)]⟩ := by
  simp only [migrateLoop, h]

theorem migrateLoop_conflict (S : Settings) (E : Env) (username password : String)
    (file : JfrogFile) (rest : List JfrogFile) (st : LoopState)
    (h : (doMigrateJfrogArt S E st.hist file.GetFilePath username password).2 =
      some .ErrFileConflict) :
    migrateLoop S E username password (file :: rest) st =
      (⟨(doMigrateJfrogArt S E st.hist file.GetFilePath username password).1, st.bar + 1,
          st.report.AddSkippedResult file.Name file.GetFilePath "409 Conflict",
          st.attempts ++ [(file, some .ErrFileConflict)]⟩, some .ErrForEachContinue) := by
  simp only [migrateLoop, h, if_true]

theorem migrateLoop_failed (S : Settings) (E : Env) (username password : String)
    (file : JfrogFile) (rest : List JfrogFile) (st : LoopState) (e : GoError)
    (h : (doMigrateJfrogArt S E st.hist file.GetFilePath username password).2 = some e)
    (hne : e ≠ .ErrFileConflict) :
    migrateLoop S E username password (file :: rest) st =
      if S.FailFast then
        (⟨(doMigrateJfrogArt S E st.hist file.GetFilePath username password).1, st.bar + 1,
          st.report.AddFailedResult file.Name file.GetFilePath (e.Error E.continueText),
          st.attempts ++ [(file, some e)]⟩,
          some (.Wrap e ("failed to migrate " ++ file.GetFilePath)))
      else
        migrateLoop S E username password rest
          ⟨(doMigrateJfrogArt S E st.hist file.GetFilePath username password).1, st.bar + 1,
            st.report.AddFailedResult file.Name file.GetFilePath (e.Error E.continueText),
            st.attempts ++ [(file, some e)]⟩ := by
  simp only [migrateLoop, h, if_neg hne]

theorem migrateLoop_attempts_prefix (S : Settings) (E : Env) (username password : String)
    (files : List JfrogFile) :
    ∀ st : LoopState, ∃ ext,
      (migrateLoop S E username password files st).1.attempts = st.attempts ++ ext := by
  induction files with
  | nil => intro st; exact ⟨[], by simp [migrateLoop]⟩
  | cons file rest ih =>
    intro st
    cases hr : (doMigrateJfrogArt S E st.hist file.GetFilePath username password).2 with
    | none =>
      rw [migrateLoop_ok S E username password file rest st hr]
      obtain ⟨ext, h⟩ := ih ⟨(doMigrateJfrogArt S E st.hist file.GetFilePath username password).1,
        st.bar + 1, st.report.AddSucceededResult file.Name file.GetFilePath "Succeeded",
        st.attempts ++ [(file, none)]⟩
      exact ⟨(file, none) :: ext, by rw [h]; simp⟩
    | some e =>
      by_cases hc : e = .ErrFileConflict
      · subst hc
        rw [migrateLoop_conflict S E username password file rest st hr]
        exact ⟨[(file, some .ErrFileConflict)], rfl⟩
      · rw [migrateLoop_failed S E username password file rest st e hr hc]
        by_cases hff : S.FailFast = true
        · rw [if_pos hff]
          exact ⟨[(file, some e)], rfl⟩
        · rw [if_neg hff]
          obtain ⟨ext, h⟩ := ih ⟨(doMigrateJfrogArt S E st.hist file.GetFilePath username password).1,
            st.bar + 1,
            st.report.AddFailedResult file.Name file.GetFilePath (e.Error E.continueText),
            st.attempts ++ [(file, some e)]⟩
          exact ⟨(file, some e) :: ext, by rw [h]; simp⟩

theorem getElem?_append_add {α : Type} (l ext : List α) (j : Nat) :
    (l ++ ext)[l.length + j]? = ext[j]? := by
  rw [List.getElem?_append_right (by omega)]
  simp

theorem migrateLoop_failfast (S : Settings) (E : Env) (username password : String)
    (hff : S.FailFast = true) (files : List JfrogFile) :
    ∀ (st : LoopState) (j : Nat) (f : JfrogFile) (e : GoError),
      (migrateLoop S E username password files st).1.attempts[st.attempts.length + j]? =
        some (f, some e) →
      e ≠ .ErrFileConflict →
      files[j]? = some f ∧
      (migrateLoop S E username password files st).1.attempts =
        st.attempts ++ (files.take j).map (fun x => (x, none)) ++ [(f, some e)] ∧
      (migrateLoop S E username password files st).1.bar = st.bar + (j + 1) ∧
      (migrateLoop S E username password files st).1.report =
        ⟨st.report.SucceededResult ++ (files.take j).map succeededEntry,
          st.report.SkippedResult, st.report.FailedResult ++ [failedEntry E f e]⟩ ∧
      downloadsOf (migrateLoop S E username password files st).1.hist =
        downloadsOf st.hist ++
          (files.take (j + 1)).map (fun x => getDownloadUrl S x.GetFilePath) ∧
      (migrateLoop S E username password files st).2 =
        some (.Wrap e ("failed to migrate " ++ f.GetFilePath)) := by
  induction files with
  | nil =>
    intro st j f e h _
    have h0 := getElem?_append_add st.attempts [] j
    simp only [List.append_nil] at h0
    simp [migrateLoop, h0] at h
  | cons file rest ih =>
    intro st j f e h hne
    cases hr : (doMigrateJfrogArt S E st.hist file.GetFilePath username password).2 with
    | none =>
      rw [migrateLoop_ok S E username password file rest st hr] at h ⊢
      obtain ⟨ext, hext⟩ := migrateLoop_attempts_prefix S E username password rest
        ⟨(doMigrateJfrogArt S E st.hist file.GetFilePath username password).1, st.bar + 1,
          st.report.AddSucceededResult file.Name file.GetFilePath "Succeeded",
          st.attempts ++ [(file, none)]⟩
      cases j with
      | zero =>
        rw [hext] at h
        simp only [List.append_assoc] at h
        rw [getElem?_append_add] at h
        simp at h
      | succ j =>
        have h2 := ih ⟨(doMigrateJfrogArt S E st.hist file.GetFilePath username password).1,
          st.bar + 1, st.report.AddSucceededResult file.Name file.GetFilePath "Succeeded",
          st.attempts ++ [(file, none)]⟩ j f e
          (by
            have hl : (st.attempts ++ [(file, (none : Option GoError))]).length + j =
                st.attempts.length + (j + 1) := by simp; omega
            simp only [hl]
            exact h) hne
        obtain ⟨a1, a2, a3, a4, a5, a6⟩ := h2
        refine ⟨by simpa using a1, ?_, ?_, ?_, ?_, a6⟩
        · rw [a2]; simp
        · rw [a3]; simp only; omega
        · rw [a4]; simp [Report.AddSucceededResult, succeededEntry]
        · rw [a5]
          simp [doMigrateJfrogArt_downloads]
    | some e1 =>
      by_cases hc : e1 = .ErrFileConflict
      · subst hc
        rw [migrateLoop_conflict S E username password file rest st hr] at h
        simp only at h
        rw [getElem?_append_add] at h
        cases j with
        | zero => simp at h; exact absurd h.2.symm hne
        | succ j => simp at h
      · rw [migrateLoop_failed S E username password file rest st e1 hr hc, if_pos hff] at h ⊢
        simp only at h
        rw [getElem?_append_add] at h
        cases j with
        | zero =>
          simp at h
          obtain ⟨h1, h2⟩ := h
          subst h1
          subst h2
          refine ⟨by simp, by simp, rfl, by simp [Report.AddFailedResult, failedEntry], ?_, rfl⟩
          simp [doMigrateJfrogArt_downloads]
        | succ j => simp at h

/-- C3: with fail-fast enabled, if the transfer of the file at position k
(counted from 0, so item k+1 of the filtered list) is attempted and fails with an
error other than the conflict sentinel, then migrateJfrogRepository has invoked
the transfer exactly k+1 times, on the first k+1 files in order (the earlier ones
having succeeded), the report holds the first k files as succeeded, nothing as
skipped and this file as failed, no later file is attempted or recorded, and the
function returns a non-nil error wrapping this file's error. -/
theorem migrateJfrogRepository_failFast_boundary (S : Settings) (E : Env)
    (hist : List HttpCall) (files : List JfrogFile) (username password : String)
    (hff : S.FailFast = true) (k : Nat) (f : JfrogFile) (e : GoError)
    (hk : (migrateJfrogRepository S E hist files username password).state.attempts[k]? =
      some (f, some e))
    (hne : e ≠ .ErrFileConflict) :
    files[k]? = some f ∧
    (migrateJfrogRepository S E hist files username password).state.attempts =
      (files.take k).map (fun x => (x, none)) ++ [(f, some e)] ∧
    (migrateJfrogRepository S E hist files username password).state.attempts.map Prod.fst =
      files.take (k + 1) ∧
    (migrateJfrogRepository S E hist files username password).state.bar = k + 1 ∧
    downloadsOf (migrateJfrogRepository S E hist files username password).state.hist =
      downloadsOf hist ++ (files.take (k + 1)).map (fun x => getDownloadUrl S x.GetFilePath) ∧
    (migrateJfrogRepository S E hist files username password).state.report =
      ⟨(files.take k).map succeededEntry, [], [failedEntry E f e]⟩ ∧
    (migrateJfrogRepository S E hist files username password).err =
      some (.Wrap e ("failed to migrate " ++ f.GetFilePath)) := by
  have h := migrateLoop_failfast S E username password hff files (LoopState.init hist) k f e
    (by simpa [migrateJfrogRepository, LoopState.init] using hk) hne
  obtain ⟨a1, a2, a3, a4, a5, a6⟩ := h
  simp only [migrateJfrogRepository]
  refine ⟨a1, ?_, ?_, ?_, ?_, ?_, a6⟩
  · rw [a2]; simp [LoopState.init]
  · rw [a2]
    simp only [LoopState.init, List.nil_append, List.map_append, List.map_map, List.map_cons,
      List.map_nil]
    have hid : (Prod.fst ∘ fun (x : JfrogFile) => (x, (none : Option GoError))) = id := rfl
    rw [hid, List.map_id, List.take_succ, a1]
    rfl
  · rw [a3]; simp [LoopState.init]
  · rw [a5]; simp [LoopState.init]
  · rw [a4]; simp [LoopState.init, NewReport]

/-- Witness of C3: files a.jar, b.jar, c.jar with fail-fast on, the upload of
b.jar answering 500. -/
theorem migrateJfrogRepository_failFast_boundary_witness :
    (migrateJfrogRepository (exSettings true) (exEnv [] failureAtB) [] exFiles
        "user" "secret").state.attempts.map Prod.fst = [exFile "a.jar", exFile "b.jar"] ∧
    (migrateJfrogRepository (exSettings true) (exEnv [] failureAtB) [] exFiles
        "user" "secret").state.bar = 2 ∧
    (migrateJfrogRepository (exSettings true) (exEnv [] failureAtB) [] exFiles
        "user" "secret").err =
      some (.Wrap (.New "got an unexpected response status: status")
        "failed to migrate b.jar") := by
  have h := migrateJfrogRepository_failFast_boundary (exSettings true) (exEnv [] failureAtB) []
    exFiles "user" "secret" rfl 1 (exFile "b.jar")
    (.New "got an unexpected response status: status") (by decide) (by decide)
  exact ⟨h.2.2.1, h.2.2.2.1, h.2.2.2.2.2.2⟩

/-- C1: evaluation of the code where the claim fails.  For the files a.jar,
b.jar, c.jar with the upload of b.jar answering 409, under either value of the
fail-fast setting: doMigrateJfrogArt yields the conflict sentinel for b.jar and
b.jar is recorded as skipped and not as failed, but migrateJfrogRepository then
returns the non-nil error ErrForEachContinue and c.jar is never attempted. -/
theorem migrateJfrogRepository_conflict_ends_run :
    ∀ failFast : Bool,
      (migrateJfrogRepository (exSettings failFast) (exEnv [] conflictAtB) [] exFiles
          "user" "secret").state.attempts =
        [(exFile "a.jar", none), (exFile "b.jar", some .ErrFileConflict)] ∧
      (migrateJfrogRepository (exSettings failFast) (exEnv [] conflictAtB) [] exFiles
          "user" "secret").state.report =
        ⟨[⟨"a.jar", "a.jar", "Succeeded"⟩], [⟨"b.jar", "b.jar", "409 Conflict"⟩], []⟩ ∧
      (migrateJfrogRepository (exSettings failFast) (exEnv [] conflictAtB) [] exFiles
          "user" "secret").err = some .ErrForEachContinue ∧
      downloadsOf (migrateJfrogRepository (exSettings failFast) (exEnv [] conflictAtB) []
          exFiles "user" "secret").state.hist = ["/a.jar", "/b.jar"] := by
  decide

/-- C2: evaluation of the code where the claim fails.  In best-effort mode, for
the files a.jar, b.jar, c.jar with the upload of a.jar answering 409, the report
holds one entry (a.jar, skipped) when migrateJfrogRepository returns: b.jar and
c.jar are in none of the three lists. -/
theorem migrateJfrogRepository_bestEffort_incomplete :
    (exSettings false).FailFast = false ∧
    exFiles.length = 3 ∧
    (migrateJfrogRepository (exSettings false) (exEnv [] conflictAtA) [] exFiles
        "user" "secret").state.report =
      ⟨[], [⟨"a.jar", "a.jar", "409 Conflict"⟩], []⟩ ∧
    (migrateJfrogRepository (exSettings false) (exEnv [] conflictAtA) [] exFiles
        "user" "secret").state.bar = 1 := by
  decide

theorem BoolMap.get_set (m : BoolMap) (k1 k : String) :
    (m.set k1 true).get k = true ↔ k = k1 ∨ m.get k = true := by
  unfold BoolMap.set BoolMap.get
  by_cases h : k = k1
  · subst h
    simp [List.lookup]
  · have hb : (k == k1) = false := by simpa using h
    simp [List.lookup, hb, h]

theorem BoolMap.get_foldl_set {α : Type} (key : α → String) (l : List α) :
    ∀ (m : BoolMap) (k : String),
      (l.foldl (fun m x => m.set (key x) true) m).get k = true ↔
        m.get k = true ∨ ∃ x ∈ l, k = key x := by
  induction l with
  | nil => intro m k; simp
  | cons a rest ih =>
    intro m k
    simp only [List.foldl_cons]
    rw [ih, BoolMap.get_set]
    simp only [List.mem_cons, exists_eq_or_imp]
    tauto

theorem pageNumbers_succ (n : Nat) :
    pageNumbers (n + 1) = pageNumbers n ++ [(n : Int) + 1] := by
  simp [pageNumbers, List.range_succ]

theorem pageNumbers_length (n : Nat) : (pageNumbers n).length = n := by
  unfold pageNumbers
  rw [List.length_map, List.length_range]

theorem artifactsLoop_numbered (exec : Nat → Int → Except GoError ArtifactsResponse)
    (page : Nat → ArtifactsResponse) (T : Int) (N : Nat) (hN : N = (T / 1000).toNat + 1)
    (hmax : T ≤ 9223372036854774999)
    (hpages : ∀ n : Nat, 1 ≤ n → n ≤ N →
      exec (n - 1) (n : Int) = .ok (page n) ∧ (page n).Error = none ∧
        (page n).Data.TotalCount = T) :
    ∀ (d k fuel : Nat) (m : BoolMap), k + d = N → 1 ≤ d → d ≤ fuel →
      ∃ m1, artifactsLoop exec fuel ((k : Int) + 1) m (pageNumbers k) =
          some ⟨some m1, none, pageNumbers N⟩ ∧
        ∀ key, m1.get key = true ↔
          m.get key = true ∨
            ∃ n, k < n ∧ n ≤ N ∧ ∃ inst ∈ (page n).Data.InstanceSet, key = artifactKey inst := by
  intro d
  induction d with
  | zero => intro k fuel m _ h; omega
  | succ d ih =>
    intro k fuel m hk _ hfuel
    obtain ⟨fuel1, rfl⟩ : ∃ f, fuel = f + 1 := ⟨fuel - 1, by omega⟩
    obtain ⟨h1, h2, h3⟩ := hpages (k + 1) (by omega) (by omega)
    have h1b : exec (pageNumbers k).length ((k : Int) + 1) = .ok (page (k + 1)) := by
      rw [pageNumbers_length]
      simpa using h1
    simp only [artifactsLoop, h1b, h2, h3]
    by_cases hlast : d = 0
    · have hkN : k + 1 = N := by omega
      have hw : wrapInt (((k : Int) + 1) * 1000) = ((k : Int) + 1) * 1000 := by
        unfold wrapInt; omega
      have hgt : ((k : Int) + 1) * 1000 > T := by omega
      rw [hw, if_pos hgt]
      refine ⟨_, by rw [← hkN, pageNumbers_succ], ?_⟩
      intro key
      rw [BoolMap.get_foldl_set]
      constructor
      · rintro (h | ⟨x, hx, hxe⟩)
        · exact Or.inl h
        · exact Or.inr ⟨k + 1, by omega, by omega, x, hx, hxe⟩
      · rintro (h | ⟨n, hn1, hn2, x, hx, hxe⟩)
        · exact Or.inl h
        · have : n = k + 1 := by omega
          subst this
          exact Or.inr ⟨x, hx, hxe⟩
    · have hw : wrapInt (((k : Int) + 1) * 1000) = ((k : Int) + 1) * 1000 := by
        unfold wrapInt; omega
      have hw1 : wrapInt ((k : Int) + 1 + 1) = ((k + 1 : Nat) : Int) + 1 := by
        unfold wrapInt; push_cast; omega
      have hle : ¬ ((k : Int) + 1) * 1000 > T := by omega
      rw [hw, if_neg hle, hw1]
      obtain ⟨m1, hm1, hkeys⟩ := ih (k + 1) fuel1
        ((page (k + 1)).Data.InstanceSet.foldl (fun m inst => m.set (artifactKey inst) true) m)
        (by omega) (by omega) (by omega)
      refine ⟨m1, ?_, ?_⟩
      · rw [← hm1, pageNumbers_succ]
      · intro key
        rw [hkeys, BoolMap.get_foldl_set]
        constructor
        · rintro ((h | ⟨x, hx, hxe⟩) | ⟨n, hn1, hn2, x, hx, hxe⟩)
          · exact Or.inl h
          · exact Or.inr ⟨k + 1, by omega, by omega, x, hx, hxe⟩
          · exact Or.inr ⟨n, by omega, hn2, x, hx, hxe⟩
        · rintro (h | ⟨n, hn1, hn2, x, hx, hxe⟩)
          · exact Or.inl (Or.inl h)
          · by_cases hn : n = k + 1
            · subst hn
              exact Or.inl (Or.inr ⟨x, hx, hxe⟩)
            · exact Or.inr ⟨n, by omega, hn2, x, hx, hxe⟩

/-- C8: numbered pagination of FindDstExistsArtifacts with page size 1000.  If
the pages 1, ..., floor(T/1000)+1 are error-free and all report the total count T,
then for any fuel of at least that many iterations the function ends, having
requested exactly the pages 1, 2, ..., floor(T/1000)+1 in that order; that last
page number is the first N with N * 1000 > T; the function returns a nil error and
a map whose keys are exactly the keys package:version of the instances of those
pages. -/
theorem FindDstExistsArtifacts_numbered_pages (parsed : String × String × String)
    (exec : Nat → Int → Except GoError ArtifactsResponse) (page : Nat → ArtifactsResponse)
    (T : Int) (hT : 0 ≤ T) (hmax : T ≤ 9223372036854774999)
    (hpages : ∀ n : Nat, 1 ≤ n → n ≤ pageCount T →
      exec (n - 1) (n : Int) = .ok (page n) ∧ (page n).Error = none ∧
        (page n).Data.TotalCount = T)
    (fuel : Nat) (hfuel : pageCount T ≤ fuel) :
    (pageCount T : Int) = T / 1000 + 1 ∧
    (pageCount T : Int) * 1000 > T ∧
    (∀ n : Nat, 1 ≤ n → n < pageCount T → ¬ ((n : Int) * 1000 > T)) ∧
    ∃ m, FindDstExistsArtifacts (.ok parsed) exec fuel =
        some ⟨some m, none, pageNumbers (pageCount T)⟩ ∧
      ∀ key, m.get key = true ↔
        ∃ n, 1 ≤ n ∧ n ≤ pageCount T ∧
          ∃ inst ∈ (page n).Data.InstanceSet,
            key = inst.Package ++ ":" ++ inst.PackageVersion := by
  refine ⟨by unfold pageCount; omega, by unfold pageCount; omega,
    by unfold pageCount; intro n h1 h2; omega, ?_⟩
  obtain ⟨m, hm, hkeys⟩ := artifactsLoop_numbered exec page T (pageCount T) rfl hmax hpages
    (pageCount T) 0 fuel [] (by omega) (by unfold pageCount; omega) hfuel
  refine ⟨m, ?_, ?_⟩
  · simpa [FindDstExistsArtifacts, pageNumbers] using hm
  · intro key
    rw [hkeys]
    simp [BoolMap.get, artifactKey]
    constructor
    · rintro ⟨n, h1, h2, x, hx, hxe⟩
      exact ⟨n, by omega, h2, x, hx, hxe⟩
    · rintro ⟨n, h1, h2, x, hx, hxe⟩
      exact ⟨n, by omega, h2, x, hx, hxe⟩

/-- Witness of C8: for T = 2500 the function sends exactly the 3 requests for the
pages 1, 2, 3. -/
theorem FindDstExistsArtifacts_numbered_pages_witness :
    ∃ m, FindDstExistsArtifacts (.ok ("url", "project", "repo")) exArtifactsExec 3 =
        some ⟨some m, none, [1, 2, 3]⟩ ∧ m.get "pkg:v3" = true := by
  obtain ⟨_, _, _, m, hm, hkeys⟩ := FindDstExistsArtifacts_numbered_pages
    ("url", "project", "repo") exArtifactsExec exArtifactsPage 2500 (by decide) (by decide)
    (by intro n _ _; simp [exArtifactsExec, exArtifactsPage])
    3 (by decide)
  refine ⟨m, hm, ?_⟩
  rw [hkeys]
  exact ⟨3, by decide, by decide, ⟨"pkg", "v3"⟩, by decide, by decide⟩

theorem artifactsLoop_maxTotal :
    ∀ (fuel : Nat) (pageNumber : Int) (m : BoolMap) (reqs : List Int),
      artifactsLoop maxTotalExec fuel pageNumber m reqs = none := by
  intro fuel
  induction fuel with
  | zero => intro pageNumber m reqs; rfl
  | succ fuel ih =>
    intro pageNumber m reqs
    have hle : ¬ wrapInt (pageNumber * 1000) > 9223372036854775807 := by
      unfold wrapInt; omega
    simp only [artifactsLoop, maxTotalExec, if_neg hle]
    exact ih _ _ _

/-- C8, counterexample: when every page is error-free and reports the total count
2^63 - 1, no page product pageNumber * pageSize, a 64-bit int, exceeds the total,
so FindDstExistsArtifacts does not end within any number of iterations. -/
theorem FindDstExistsArtifacts_maxTotal_never_ends :
    (0 : Int) ≤ 9223372036854775807 ∧
    (∀ (i : Nat) (n : Int), ∃ r, maxTotalExec i n = .ok r ∧ r.Error = none ∧
      r.Data.TotalCount = 9223372036854775807) ∧
    ¬ ∃ fuel, FindDstExistsArtifacts (.ok ("url", "project", "repo")) maxTotalExec fuel ≠
      none := by
  refine ⟨by decide, fun i n => ⟨_, rfl, rfl, rfl⟩, ?_⟩
  rintro ⟨fuel, h⟩
  exact h (artifactsLoop_maxTotal fuel 1 [] [])

theorem String_length_eq_zero (s : String) : s.length = 0 ↔ s = "" := by
  constructor
  · intro h
    apply String.ext
    have h1 : s.data.length = 0 := h
    exact List.length_eq_zero.mp h1
  · intro h
    subst h
    rfl

theorem decodeFileList_explicitBody (resp page : FileListResponse)
    (hresp : resp.Error = none) (hpage : page.Error = none) :
    decodeFileList resp (explicitBody page) = page := by
  obtain ⟨perr, ⟨pinst, ptok⟩⟩ := page
  simp only at hpage
  subst hpage
  simp [decodeFileList, explicitBody, hresp]

theorem filesLoop_tokens (exec : Nat → String → Except GoError FileListBody)
    (last : FileListResponse)
    (hlast : last.Error = none ∧
      (last.Data.InstanceSet = [] ∨ last.Data.ContinuationToken = "")) :
    ∀ (pre : List FileListResponse) (tok : String) (m : BoolMap) (reqs : List String)
      (resp : FileListResponse) (fuel : Nat),
      resp.Error = none →
      (∀ p ∈ pre, p.Error = none ∧ p.Data.InstanceSet ≠ [] ∧ p.Data.ContinuationToken ≠ "") →
      (∀ i, i ≤ pre.length →
        exec (reqs.length + i) ((tok :: tokensOf pre)[i]?.getD "") =
          .ok (explicitBody ((pre ++ [last])[i]?.getD last))) →
      pre.length + 1 ≤ fuel →
      ∃ m1, filesLoop exec fuel tok m reqs resp =
          some ⟨some m1, none, reqs ++ tok :: tokensOf pre⟩ ∧
        ∀ key, m1.get key = true ↔
          m.get key = true ∨ ∃ p ∈ pre ++ [last], ∃ f ∈ p.Data.InstanceSet, key = f.Path := by
  intro pre
  induction pre with
  | nil =>
    intro tok m reqs resp fuel hresp _ hexec hfuel
    obtain ⟨fuel1, rfl⟩ : ∃ f, fuel = f + 1 := ⟨fuel - 1, by omega⟩
    have h0 := hexec 0 (by simp)
    simp only [Nat.add_zero, List.getElem?_cons_zero, Option.getD_some, List.nil_append] at h0
    simp only [filesLoop, h0, decodeFileList_explicitBody resp last hresp hlast.1, hlast.1,
      tokensOf, List.map_nil]
    by_cases hempty : last.Data.InstanceSet = []
    · simp only [hempty, List.length_nil, if_true]
      exact ⟨m, rfl, by simp [hempty]⟩
    · have htok : last.Data.ContinuationToken = "" := hlast.2.resolve_left hempty
      have hlen : ¬ last.Data.InstanceSet.length = 0 := by
        simpa [List.length_eq_zero] using hempty
      have htl : last.Data.ContinuationToken.length = 0 :=
        (String_length_eq_zero _).mpr htok
      simp only [if_neg hlen, htl, if_true]
      refine ⟨_, rfl, ?_⟩
      intro key
      rw [BoolMap.get_foldl_set]
      simp
  | cons p rest ih =>
    intro tok m reqs resp fuel hresp hpre hexec hfuel
    obtain ⟨fuel1, rfl⟩ : ∃ f, fuel = f + 1 := ⟨fuel - 1, by omega⟩
    have h0 := hexec 0 (by simp)
    simp only [Nat.add_zero, List.getElem?_cons_zero, Option.getD_some, List.cons_append] at h0
    obtain ⟨hp1, hp2, hp3⟩ := hpre p (by simp)
    have hlen : ¬ p.Data.InstanceSet.length = 0 := by
      simpa [List.length_eq_zero] using hp2
    have htl : ¬ p.Data.ContinuationToken.length = 0 := by
      rw [String_length_eq_zero]; exact hp3
    simp only [filesLoop, h0, decodeFileList_explicitBody resp p hresp hp1, hp1, if_neg hlen,
      if_neg htl]
    obtain ⟨m1, hm1, hkeys⟩ := ih p.Data.ContinuationToken
      (p.Data.InstanceSet.foldl (fun m f => m.set f.Path true) m) (reqs ++ [tok]) p fuel1 hp1
      (fun q hq => hpre q (by simp [hq]))
      (by
        intro i hi
        have h := hexec (i + 1) (by simp; omega)
        have hl : (reqs ++ [tok]).length + i = reqs.length + (i + 1) := by simp; omega
        rw [hl]
        simpa [tokensOf] using h)
      (by simp at hfuel; omega)
    refine ⟨m1, ?_, ?_⟩
    · rw [hm1]
      simp [tokensOf]
    · intro key
      rw [hkeys, BoolMap.get_foldl_set]
      simp only [List.mem_append, List.mem_cons, List.mem_singleton, List.not_mem_nil, or_false]
      constructor
      · rintro ((h | ⟨f, hf, hfe⟩) | ⟨q, hq, f, hf, hfe⟩)
        · exact Or.inl h
        · exact Or.inr ⟨p, Or.inl (Or.inl rfl), f, hf, hfe⟩
        · rcases hq with hq | hq
          · exact Or.inr ⟨q, Or.inl (Or.inr hq), f, hf, hfe⟩
          · exact Or.inr ⟨q, Or.inr hq, f, hf, hfe⟩
      · rintro (h | ⟨q, hq, f, hf, hfe⟩)
        · exact Or.inl (Or.inl h)
        · rcases hq with (hq | hq) | hq
          · subst hq
            exact Or.inl (Or.inr ⟨f, hf, hfe⟩)
          · exact Or.inr ⟨q, Or.inl hq, f, hf, hfe⟩
          · exact Or.inr ⟨q, Or.inr hq, f, hf, hfe⟩

theorem filesLoop_omittedFields :
    ∀ (fuel : Nat) (data : BoolMap) (reqs : List String), reqs ≠ [] →
      filesLoop omittedFieldsExec fuel "t1" data reqs ⟨none, ⟨[⟨"p1"⟩], "t1"⟩⟩ = none := by
  intro fuel
  induction fuel with
  | zero => intro data reqs _; rfl
  | succ fuel ih =>
    intro data reqs hne
    have hlen : ¬ reqs.length = 0 := by
      simpa [List.length_eq_zero] using hne
    have hexec : omittedFieldsExec reqs.length "t1" = .ok ⟨none, none, none⟩ := by
      simp [omittedFieldsExec, hlen]
    have htok : ¬ ("t1" : String).length = 0 := by decide
    simp only [filesLoop, hexec, decodeFileList, List.length_singleton, Nat.succ_ne_zero,
      if_false, htok]
    exact ih _ _ (by simp)

/-- C9, counterexample: the first page holds the path p1 and the token t1, and
every later page is error-free with no instances and no token, its body omitting
both fields.  The reply is decoded into the response that still holds the first
page, so the loop reads p1 and t1 again and FindDstExistsFiles does not end within
any number of iterations, instead of stopping at the second page. -/
theorem FindDstExistsFiles_omitted_fields_never_ends :
    omittedFieldsExec 0 "" = .ok ⟨none, some [⟨"p1"⟩], some "t1"⟩ ∧
    (∀ (i : Nat) (token : String), 0 < i →
      omittedFieldsExec i token = .ok ⟨none, none, none⟩) ∧
    ¬ ∃ fuel, FindDstExistsFiles (.ok ("url", "project", "repo")) omittedFieldsExec fuel ≠
      none := by
  refine ⟨rfl, ?_, ?_⟩
  · intro i token hi
    have h : ¬ i = 0 := by omega
    simp [omittedFieldsExec, h]
  · rintro ⟨fuel, h⟩
    apply h
    cases fuel with
    | zero => rfl
    | succ fuel =>
      have htok : ¬ ("t1" : String).length = 0 := by decide
      simp only [FindDstExistsFiles, filesLoop, omittedFieldsExec, List.length_nil, if_true,
        decodeFileList, List.length_singleton, Nat.succ_ne_zero, if_false, htok]
      exact filesLoop_omittedFields fuel _ _ (by simp)

/-- C9, amended: continuation-token pagination of FindDstExistsFiles over pages
whose replies carry the instance list and the continuation token.  Let the pages
served be error-free, the pages pre each having instances and a non-empty token,
followed by a page last that has no instances or an empty token, the request
number i being answered with page i in full when it carries the token of the page
before it (the empty token for the first).  Then for any fuel of at least that
many iterations the function ends at the page last: the requests sent carry, in
order, the empty token and then the token of each page of pre; the error is nil
and the keys of the returned map are exactly the paths of the instances of all the
pages requested, those of the page last included. -/
theorem FindDstExistsFiles_continuation_tokens (parsed : String × String × String)
    (exec : Nat → String → Except GoError FileListBody)
    (pre : List FileListResponse) (last : FileListResponse)
    (hpre : ∀ p ∈ pre,
      p.Error = none ∧ p.Data.InstanceSet ≠ [] ∧ p.Data.ContinuationToken ≠ "")
    (hlast : last.Error = none ∧
      (last.Data.InstanceSet = [] ∨ last.Data.ContinuationToken = ""))
    (hexec : ∀ i, i ≤ pre.length →
      exec i (("" :: tokensOf pre)[i]?.getD "") =
        .ok (explicitBody ((pre ++ [last])[i]?.getD last)))
    (fuel : Nat) (hfuel : pre.length + 1 ≤ fuel) :
    ∃ m, FindDstExistsFiles (.ok parsed) exec fuel =
        some ⟨some m, none, "" :: tokensOf pre⟩ ∧
      ("" :: tokensOf pre).length = pre.length + 1 ∧
      ∀ key, m.get key = true ↔
        ∃ p ∈ pre ++ [last], ∃ f ∈ p.Data.InstanceSet, key = f.Path := by
  obtain ⟨m, hm, hkeys⟩ := filesLoop_tokens exec last hlast pre "" [] []
    ⟨none, ⟨[], ""⟩⟩ fuel rfl hpre (by simpa using hexec) hfuel
  refine ⟨m, by simpa [FindDstExistsFiles] using hm, by simp [tokensOf], ?_⟩
  intro key
  rw [hkeys]
  simp [BoolMap.get]

/-- Witness of C9: four pages with instances and tokens t1, ..., t4 followed by an
empty page, every reply carrying both fields, give exactly 5 requests. -/
theorem FindDstExistsFiles_continuation_tokens_witness :
    ∃ m, FindDstExistsFiles (.ok ("url", "project", "repo")) exFilesExec 5 =
        some ⟨some m, none, ["", "t1", "t2", "t3", "t4"]⟩ ∧
      ["", "t1", "t2", "t3", "t4"].length = 5 ∧ m.get "p4" = true := by
  obtain ⟨m, hm, _, hkeys⟩ := FindDstExistsFiles_continuation_tokens
    ("url", "project", "repo") exFilesExec exFilePages exLastFilePage
    (by decide) (by decide) (by intro i _; rfl) 5 (by decide)
  refine ⟨m, hm, rfl, ?_⟩
  rw [hkeys]
  exact ⟨⟨none, ⟨[⟨"p4"⟩], "t4"⟩⟩, by decide, ⟨"p4"⟩, by decide, rfl⟩

/-- C4: evaluation of the code where the claim fails.  When the second page carries
a query-level error, both index builders stop at that page and return a non-nil
error, but the map they return with it is not nil: it is the map built so far and
holds the key collected from the first page. -/
theorem index_builders_return_partial_map :
    FindDstExistsArtifacts (.ok ("url", "project", "repo")) errorAtSecondArtifactsExec 9 =
      some ⟨some [("pkg:v1", true)],
        some (.New "failed to find exists artifacts: InternalError, query failed"),
        [1, 2]⟩ ∧
    FindDstExistsFiles (.ok ("url", "project", "repo")) errorAtSecondFilesExec 9 =
      some ⟨some [("p1", true)], some (.New "failed to find exists files: InternalError"),
        ["", "t1"]⟩ := by
  decide

theorem foldl_append_filter {α : Type} (q : α → Bool) (l : List α) :
    ∀ init : List α,
      l.foldl (fun acc x => if q x then acc ++ [x] else acc) init = init ++ l.filter q := by
  induction l with
  | nil => intro init; simp
  | cons a rest ih =>
    intro init
    simp only [List.foldl_cons, List.filter_cons]
    by_cases h : q a = true
    · simp [h, ih]
    · simp [h, ih]

theorem stringsHasPrefix_empty (s p : String) (h : p.length = 0) :
    stringsHasPrefix s p = true := by
  have hp : p = "" := (String_length_eq_zero p).mp h
  subst hp
  simp [stringsHasPrefix, List.isPrefixOf]

theorem prefixFilter_eq_filter (S : Settings) (res : List JfrogFile) :
    prefixFilter S res = res.filter (fun f => stringsHasPrefix f.GetFilePath S.Prefix) := by
  unfold prefixFilter
  by_cases h : S.Prefix.length = 0
  · simp only [ne_eq, h, not_true_eq_false, if_false]
    symm
    rw [List.filter_eq_self]
    intro f _
    exact stringsHasPrefix_empty _ _ h
  · simp only [ne_eq, h, not_false_eq_true, if_true]
    rw [foldl_append_filter]
    simp

theorem existenceFilter_eq_filter (res : List JfrogFile) (dstExists : Option BoolMap) :
    existenceFilter res dstExists =
      res.filter (fun f => !(mapIndex dstExists (f.GetFilePath ++ ":latest"))) := by
  unfold existenceFilter
  rw [foldl_append_filter]
  simp [isNeedMigrate]

theorem filters_eq_workList (S : Settings) (listing : List JfrogFile)
    (dstExists : Option BoolMap) :
    existenceFilter (prefixFilter S listing) dstExists = workList S listing dstExists := by
  rw [prefixFilter_eq_filter, existenceFilter_eq_filter, List.filter_filter]
  unfold workList
  congr 1
  funext f
  exact Bool.and_comm _ _

theorem migrateLoop_attempts_mem (S : Settings) (E : Env) (username password : String)
    (files : List JfrogFile) :
    ∀ (st : LoopState) (x : JfrogFile × Option GoError),
      x ∈ (migrateLoop S E username password files st).1.attempts →
        x ∈ st.attempts ∨ x.1 ∈ files := by
  induction files with
  | nil => intro st x hx; exact Or.inl (by simpa [migrateLoop] using hx)
  | cons file rest ih =>
    intro st x hx
    cases hr : (doMigrateJfrogArt S E st.hist file.GetFilePath username password).2 with
    | none =>
      rw [migrateLoop_ok S E username password file rest st hr] at hx
      rcases ih _ x hx with h | h
      · simp only [List.mem_append, List.mem_singleton] at h
        rcases h with h | h
        · exact Or.inl h
        · subst h
          exact Or.inr (by simp)
      · exact Or.inr (by simp [h])
    | some e =>
      by_cases hc : e = .ErrFileConflict
      · subst hc
        rw [migrateLoop_conflict S E username password file rest st hr] at hx
        simp only [List.mem_append, List.mem_singleton] at hx
        rcases hx with h | h
        · exact Or.inl h
        · subst h
          exact Or.inr (by simp)
      · rw [migrateLoop_failed S E username password file rest st e hr hc] at hx
        by_cases hff : S.FailFast = true
        · rw [if_pos hff] at hx
          simp only [List.mem_append, List.mem_singleton] at hx
          rcases hx with h | h
          · exact Or.inl h
          · subst h
            exact Or.inr (by simp)
        · rw [if_neg hff] at hx
          rcases ih _ x hx with h | h
          · simp only [List.mem_append, List.mem_singleton] at h
            rcases h with h | h
            · exact Or.inl h
            · subst h
              exact Or.inr (by simp)
          · exact Or.inr (by simp [h])

theorem migrateLoop_bar_of_completed (S : Settings) (E : Env) (username password : String)
    (files : List JfrogFile) :
    ∀ st : LoopState, (migrateLoop S E username password files st).2 = none →
      (migrateLoop S E username password files st).1.bar = st.bar + files.length := by
  induction files with
  | nil => intro st _; simp [migrateLoop]
  | cons file rest ih =>
    intro st h
    cases hr : (doMigrateJfrogArt S E st.hist file.GetFilePath username password).2 with
    | none =>
      rw [migrateLoop_ok S E username password file rest st hr] at h ⊢
      rw [ih _ h]
      simp only [List.length_cons]
      omega
    | some e =>
      by_cases hc : e = .ErrFileConflict
      · subst hc
        rw [migrateLoop_conflict S E username password file rest st hr] at h
        simp at h
      · rw [migrateLoop_failed S E username password file rest st e hr hc] at h ⊢
        by_cases hff : S.FailFast = true
        · rw [if_pos hff] at h
          simp at h
        · rw [if_neg hff] at h ⊢
          rw [ih _ h]
          simp only [List.length_cons]
          omega

theorem migrateJfrogRepository_returns (S : Settings) (E : Env) (hist : List HttpCall)
    (files : List JfrogFile) (username password : String) (hne : files ≠ []) :
    (migrateJfrogRepository S E hist files username password).returns = true := by
  simp only [migrateJfrogRepository]
  cases hr : (migrateLoop S E username password files (LoopState.init hist)).2 with
  | some e => rfl
  | none =>
    have hb := migrateLoop_bar_of_completed S E username password files (LoopState.init hist) hr
    have hl : 0 < files.length := List.length_pos.mpr hne
    have hb2 : (migrateLoop S E username password files (LoopState.init hist)).1.bar =
        files.length := by
      rw [hb]
      simp [LoopState.init]
    simp only [barComplete, hb2]
    simp [hl]

/-- C6: when the repository name is found and the lister returns a listing, the
two filters of MigrateFromJfrog leave exactly the work list: the files of the
listing, in source order and keeping duplicates, whose path starts with the prefix
(every file when the prefix is empty) and whose key path:latest does not read true
in the index.  That list is the one handed to migrateJfrogRepository (the call is
made unless the list is empty), every file the loop attempts belongs to it, so a
file whose key is in the index is never attempted; with a nil index the existence
filter drops nothing, and Migrate holds a nil index whenever the run is forced.
The run of the transfer loop is the run of migrateJfrogRepository on that very
list with the credentials of the destination, the lister is called once with the
repository name, and the function returns what that run returns. -/
theorem MigrateFromJfrog_work_list (S : Settings) (E : Env) (cfg : AuthConfig)
    (jfrogPath : String) (dstExists : Option BoolMap) (repository : String)
    (listing : List JfrogFile)
    (hrepo : (stringsSplit (stringsTrim jfrogPath "/") '/')[1]? = some repository)
    (hlist : E.FindFileListFromJfrog repository = .ok listing) :
    existenceFilter (prefixFilter S listing) dstExists = workList S listing dstExists ∧
    (MigrateFromJfrog S E cfg jfrogPath dstExists).handed =
      (if workList S listing dstExists = [] then none
        else some (workList S listing dstExists)) ∧
    (∀ run f e, (MigrateFromJfrog S E cfg jfrogPath dstExists).repo = some run →
      (f, e) ∈ run.state.attempts →
        f ∈ workList S listing dstExists ∧
          mapIndex dstExists (f.GetFilePath ++ ":latest") = false) ∧
    (S.Prefix = "" →
      workList S listing dstExists =
        listing.filter (fun f => !(mapIndex dstExists (f.GetFilePath ++ ":latest")))) ∧
    workList S listing none =
      listing.filter (fun f => stringsHasPrefix f.GetFilePath S.Prefix) ∧
    existenceFilter listing none = listing ∧
    (S.Force = true → (Migrate S E).1 = none) ∧
    (MigrateFromJfrog S E cfg jfrogPath dstExists).repo =
      (if workList S listing dstExists = [] then none
        else some (migrateJfrogRepository S E [] (workList S listing dstExists)
          cfg.Username cfg.Password)) ∧
    (MigrateFromJfrog S E cfg jfrogPath dstExists).listCalls = [repository] ∧
    (workList S listing dstExists ≠ [] →
      (MigrateFromJfrog S E cfg jfrogPath dstExists).outcome =
        .returned (migrateJfrogRepository S E [] (workList S listing dstExists)
          cfg.Username cfg.Password).err) := by
  have hw := filters_eq_workList S listing dstExists
  refine ⟨hw, ?_, ?_, ?_, ?_, ?_, ?_, ?_, ?_, ?_⟩
  · simp only [MigrateFromJfrog, hrepo, hlist, hw]
    by_cases h : workList S listing dstExists = []
    · simp only [h, List.length_nil, if_true]
      split <;> rfl
    · have hl : ¬ (workList S listing dstExists).length = 0 := by
        simpa [List.length_eq_zero] using h
      simp only [hl, h, if_false]
  · intro run f e hrun hmem
    simp only [MigrateFromJfrog, hrepo, hlist, hw] at hrun
    by_cases h : workList S listing dstExists = []
    · simp only [h, List.length_nil, if_true] at hrun
      split at hrun <;> cases hrun
    · have hl : ¬ (workList S listing dstExists).length = 0 := by
        simpa [List.length_eq_zero] using h
      simp only [hl, if_false, Option.some.injEq] at hrun
      subst hrun
      have hm := migrateLoop_attempts_mem S E cfg.Username cfg.Password
        (workList S listing dstExists) (LoopState.init []) (f, e)
        (by simpa [migrateJfrogRepository] using hmem)
      have hf : f ∈ workList S listing dstExists := by
        rcases hm with hm | hm
        · simp [LoopState.init] at hm
        · exact hm
      refine ⟨hf, ?_⟩
      have h2 := (List.mem_filter.mp hf).2
      simp only [Bool.and_eq_true, Bool.not_eq_true'] at h2
      exact h2.2
  · intro hp
    unfold workList
    congr 1
    funext f
    simp [hp, stringsHasPrefix, List.isPrefixOf]
  · unfold workList
    congr 1
    funext f
    simp [mapIndex]
  · rw [existenceFilter_eq_filter]
    simp [mapIndex]
  · intro hforce
    simp only [Migrate, hforce]
    split
    · rfl
    · split
      · rfl
      · split
        · rfl
        · simp only [Bool.not_true, Bool.false_eq_true, if_false]
          split
          · rfl
          · split <;> rfl
  · simp only [MigrateFromJfrog, hrepo, hlist, hw]
    by_cases h : workList S listing dstExists = []
    · simp only [h, List.length_nil, if_true]
      split <;> rfl
    · have hl : ¬ (workList S listing dstExists).length = 0 := by
        simpa [List.length_eq_zero] using h
      simp only [hl, h, if_false]
  · simp only [MigrateFromJfrog, hrepo, hlist, hw]
    split
    · split <;> rfl
    · rfl
  · intro h
    have hl : ¬ (workList S listing dstExists).length = 0 := by
      simpa [List.length_eq_zero] using h
    have hret := migrateJfrogRepository_returns S E [] (workList S listing dstExists)
      cfg.Username cfg.Password h
    simp only [MigrateFromJfrog, hrepo, hlist, hw, hl, if_false, hret, if_true]

/-- Witness of C6: for the listing a.jar, b.jar, c.jar with the key of b.jar in the
index and no prefix, the list handed to the transfer loop is a.jar, c.jar. -/
theorem MigrateFromJfrog_work_list_witness :
    (MigrateFromJfrog (exSettings false) (exEnv exFiles allCreated) exCfg
        "/artifactory/repo" exIndexB).handed = some [exFile "a.jar", exFile "c.jar"] ∧
    (MigrateFromJfrog (exSettings false) (exEnv exFiles allCreated) exCfg
        "/artifactory/repo" exIndexB).repo =
      some (migrateJfrogRepository (exSettings false) (exEnv exFiles allCreated) []
        [exFile "a.jar", exFile "c.jar"] "user" "secret") :=
  ⟨(MigrateFromJfrog_work_list (exSettings false) (exEnv exFiles allCreated) exCfg
      "/artifactory/repo" exIndexB "repo" exFiles (by decide) rfl).2.1,
    (MigrateFromJfrog_work_list (exSettings false) (exEnv exFiles allCreated) exCfg
      "/artifactory/repo" exIndexB "repo" exFiles (by decide) rfl).2.2.2.2.2.2.2.1⟩

/-- C5, counterexample: for the non-empty listing a.jar, b.jar, c.jar and the
prefix zzz that no file matches, the set left after the filters is empty and
MigrateFromJfrog returns the not-found error instead of success. -/
theorem MigrateFromJfrog_no_prefix_match_is_not_found :
    exFiles ≠ [] ∧
    existenceFilter (prefixFilter (exSettingsWith "zzz") exFiles) none = [] ∧
    (MigrateFromJfrog (exSettingsWith "zzz") (exEnv exFiles allCreated) exCfg
        "/artifactory/repo" none).outcome =
      .returned (some (.New (notFoundText "repo"))) := by
  decide

/-- C5, amended: when the set left after the prefix filter and the existence
filter is empty, MigrateFromJfrog attempts no transfer and its result depends on
the listing left after the prefix filter: it returns nil exactly when that listing
is not empty and the not-found error exactly when it is empty.  In particular,
with an empty prefix a non-empty listing whose every key is in the index ends in
success. -/
theorem MigrateFromJfrog_empty_work_list (S : Settings) (E : Env) (cfg : AuthConfig)
    (jfrogPath : String) (dstExists : Option BoolMap) (repository : String)
    (listing : List JfrogFile)
    (hrepo : (stringsSplit (stringsTrim jfrogPath "/") '/')[1]? = some repository)
    (hlist : E.FindFileListFromJfrog repository = .ok listing)
    (hempty : existenceFilter (prefixFilter S listing) dstExists = []) :
    (MigrateFromJfrog S E cfg jfrogPath dstExists).handed = none ∧
    (MigrateFromJfrog S E cfg jfrogPath dstExists).repo = none ∧
    (MigrateFromJfrog S E cfg jfrogPath dstExists).listCalls = [repository] ∧
    ((MigrateFromJfrog S E cfg jfrogPath dstExists).outcome = .returned none ↔
      prefixFilter S listing ≠ []) ∧
    ((MigrateFromJfrog S E cfg jfrogPath dstExists).outcome =
        .returned (some (.New (notFoundText repository))) ↔
      prefixFilter S listing = []) ∧
    (S.Prefix = "" → listing ≠ [] →
      (MigrateFromJfrog S E cfg jfrogPath dstExists).outcome = .returned none) := by
  have hmain : ∀ (hres : Decidable (prefixFilter S listing = [])),
      MigrateFromJfrog S E cfg jfrogPath dstExists =
        if prefixFilter S listing = [] then
          ⟨[repository], none, none, .returned (some (.New (notFoundText repository)))⟩
        else ⟨[repository], none, none, .returned none⟩ := by
    intro hres
    simp only [MigrateFromJfrog, hrepo, hlist, hempty, List.length_nil, if_true]
    by_cases h : prefixFilter S listing = []
    · simp [h]
    · have hl : (prefixFilter S listing).length > 0 := List.length_pos.mpr h
      simp [h, hl]
  have hm := hmain inferInstance
  by_cases h : prefixFilter S listing = []
  · rw [hm, if_pos h]
    refine ⟨rfl, rfl, rfl, by simp [h], by simp [h], ?_⟩
    intro hp hl
    exfalso
    apply hl
    have hpf : prefixFilter S listing = listing := by
      simp [prefixFilter, hp]
    rw [← hpf]
    exact h
  · rw [hm, if_neg h]
    exact ⟨rfl, rfl, rfl, by simp [h], by simp [h], fun _ _ => rfl⟩

/-- Witness of C5: with no prefix and the keys of a.jar, b.jar, c.jar all in the
index (a second run), MigrateFromJfrog attempts nothing and returns nil. -/
theorem MigrateFromJfrog_empty_work_list_witness :
    (MigrateFromJfrog (exSettings false) (exEnv exFiles allCreated) exCfg
        "/artifactory/repo" exIndexAll).repo = none ∧
    (MigrateFromJfrog (exSettings false) (exEnv exFiles allCreated) exCfg
        "/artifactory/repo" exIndexAll).outcome = .returned none := by
  have h := MigrateFromJfrog_empty_work_list (exSettings false) (exEnv exFiles allCreated)
    exCfg "/artifactory/repo" exIndexAll "repo" exFiles (by decide) rfl (by decide)
  exact ⟨h.2.1, h.2.2.2.2.2 (by decide) (by decide)⟩

theorem splitChars_length (c : Char) (s : List Char) :
    (splitChars c s).length = s.count c + 1 := by
  induction s with
  | nil => simp [splitChars]
  | cons x xs ih =>
    by_cases h : x = c
    · subst h
      simp [splitChars, ih]
    · have hc : List.count c (x :: xs) = List.count c xs := by
        rw [List.count_cons]
        have hb : (x == c) = false := by simpa using h
        simp [hb]
      rw [hc]
      cases hs : splitChars c xs with
      | nil => rw [hs] at ih; simp at ih
      | cons seg segs =>
        rw [hs] at ih
        simp only [splitChars, if_neg h, hs]
        simpa using ih

theorem splitChars_head (c : Char) (b rest : List Char) (hb : c ∉ b)
    (hrest : rest = [] ∨ rest.head? = some c) :
    ∃ segs, splitChars c (b ++ rest) = b :: segs := by
  induction b with
  | nil =>
    rcases hrest with h | h
    · subst h
      exact ⟨[], by simp [splitChars]⟩
    · cases rest with
      | nil => simp at h
      | cons x xs =>
        simp only [List.head?_cons, Option.some.injEq] at h
        subst h
        exact ⟨splitChars x xs, by simp [splitChars]⟩
  | cons x xs ih =>
    have hx : x ≠ c := fun h => hb (by simp [h])
    obtain ⟨segs, hsegs⟩ := ih (fun h => hb (by simp [h]))
    exact ⟨segs, by simp [splitChars, if_neg hx, hsegs]⟩

theorem splitChars_second (c : Char) (a b rest : List Char) (ha : c ∉ a) (hb : c ∉ b)
    (hrest : rest = [] ∨ rest.head? = some c) :
    ∃ segs, splitChars c (a ++ c :: (b ++ rest)) = a :: b :: segs := by
  induction a with
  | nil =>
    obtain ⟨segs, hsegs⟩ := splitChars_head c b rest hb hrest
    exact ⟨segs, by simp [splitChars, hsegs]⟩
  | cons x xs ih =>
    have hx : x ≠ c := fun h => ha (by simp [h])
    obtain ⟨segs, hsegs⟩ := ih (fun h => ha (by simp [h]))
    exact ⟨segs, by simp [splitChars, if_neg hx, hsegs]⟩

theorem exists_first_segment (c : Char) (s : List Char) :
    ∃ b rest, s = b ++ rest ∧ c ∉ b ∧ (rest = [] ∨ rest.head? = some c) := by
  induction s with
  | nil => exact ⟨[], [], rfl, by simp, Or.inl rfl⟩
  | cons x xs ih =>
    by_cases h : x = c
    · exact ⟨[], x :: xs, rfl, by simp, Or.inr (by simp [h])⟩
    · obtain ⟨b, rest, h1, h2, h3⟩ := ih
      refine ⟨x :: b, rest, by simp [h1], ?_, h3⟩
      simp only [List.mem_cons, not_or]
      exact ⟨fun hc => h hc.symm, h2⟩

theorem exists_two_segments (c : Char) (s : List Char) (hc : c ∈ s) :
    ∃ a b rest, s = a ++ c :: (b ++ rest) ∧ c ∉ a ∧ c ∉ b ∧
      (rest = [] ∨ rest.head? = some c) := by
  obtain ⟨a, rest1, h1, h2, h3⟩ := exists_first_segment c s
  cases rest1 with
  | nil =>
    simp only [List.append_nil] at h1
    subst h1
    exact absurd hc h2
  | cons x t =>
    rcases h3 with h3 | h3
    · simp at h3
    · simp only [List.head?_cons, Option.some.injEq] at h3
      subst h3
      obtain ⟨b, rest, h4, h5, h6⟩ := exists_first_segment x t
      exact ⟨a, b, rest, by rw [h1, h4], h2, h5, h6⟩

/-- C10: the lookup of index 1 in the list obtained from the source URL path by
trimming the slashes at both ends and splitting at each slash is in range exactly
when the trimmed path contains a slash; the trimmed path then reads a, slash, b
followed by nothing or by a slash and more, with no slash in a or b, and the
repository name is the second segment b.  For every other path (empty, a single
slash, one segment) the lookup is out of range and MigrateFromJfrog panics without
having called the lister or attempted a transfer, rather than returning an error. -/
theorem MigrateFromJfrog_repository_lookup (S : Settings) (E : Env) (cfg : AuthConfig)
    (jfrogPath : String) (dstExists : Option BoolMap) :
    (((stringsSplit (stringsTrim jfrogPath "/") '/')[1]?).isSome = true ↔
      '/' ∈ (stringsTrim jfrogPath "/").data) ∧
    ('/' ∈ (stringsTrim jfrogPath "/").data →
      ∃ a b rest, (stringsTrim jfrogPath "/").data = a ++ '/' :: (b ++ rest) ∧
        '/' ∉ a ∧ '/' ∉ b ∧ (rest = [] ∨ rest.head? = some '/') ∧
        (stringsSplit (stringsTrim jfrogPath "/") '/')[1]? = some (String.mk b)) ∧
    (∀ a b rest, (stringsTrim jfrogPath "/").data = a ++ '/' :: (b ++ rest) →
      '/' ∉ a → '/' ∉ b → (rest = [] ∨ rest.head? = some '/') →
        (stringsSplit (stringsTrim jfrogPath "/") '/')[1]? = some (String.mk b)) ∧
    ('/' ∉ (stringsTrim jfrogPath "/").data →
      MigrateFromJfrog S E cfg jfrogPath dstExists = ⟨[], none, none, .panicked⟩) ∧
    ('/' ∈ (stringsTrim jfrogPath "/").data →
      (MigrateFromJfrog S E cfg jfrogPath dstExists).outcome ≠ .panicked ∧
        (MigrateFromJfrog S E cfg jfrogPath dstExists).listCalls.length = 1) := by
  have hsecond : ∀ a b rest, (stringsTrim jfrogPath "/").data = a ++ '/' :: (b ++ rest) →
      '/' ∉ a → '/' ∉ b → (rest = [] ∨ rest.head? = some '/') →
        (stringsSplit (stringsTrim jfrogPath "/") '/')[1]? = some (String.mk b) := by
    intro a b rest h1 h2 h3 h4
    obtain ⟨segs, hsegs⟩ := splitChars_second '/' a b rest h2 h3 h4
    simp [stringsSplit, h1, hsegs]
  have hiff : ((stringsSplit (stringsTrim jfrogPath "/") '/')[1]?).isSome = true ↔
      '/' ∈ (stringsTrim jfrogPath "/").data := by
    constructor
    · intro h
      by_contra hn
      have hlen := splitChars_length '/' (stringsTrim jfrogPath "/").data
      rw [List.count_eq_zero_of_not_mem hn] at hlen
      have hnone : (stringsSplit (stringsTrim jfrogPath "/") '/')[1]? = none := by
        apply List.getElem?_eq_none
        simp [stringsSplit, hlen]
      rw [hnone] at h
      simp at h
    · intro h
      obtain ⟨a, b, rest, h1, h2, h3, h4⟩ := exists_two_segments '/' _ h
      rw [hsecond a b rest h1 h2 h3 h4]
      rfl
  refine ⟨hiff, ?_, hsecond, ?_, ?_⟩
  · intro h
    obtain ⟨a, b, rest, h1, h2, h3, h4⟩ := exists_two_segments '/' _ h
    exact ⟨a, b, rest, h1, h2, h3, h4, hsecond a b rest h1 h2 h3 h4⟩
  · intro h
    have hnone : (stringsSplit (stringsTrim jfrogPath "/") '/')[1]? = none := by
      cases hs : (stringsSplit (stringsTrim jfrogPath "/") '/')[1]? with
      | none => rfl
      | some r =>
        exact absurd (hiff.mp (by rw [hs]; rfl)) h
    simp only [MigrateFromJfrog, hnone]
  · intro h
    obtain ⟨a, b, rest, h1, h2, h3, h4⟩ := exists_two_segments '/' _ h
    have hsome := hsecond a b rest h1 h2 h3 h4
    simp only [MigrateFromJfrog, hsome]
    split
    · exact ⟨by simp, rfl⟩
    · split
      · split <;> exact ⟨by simp, rfl⟩
      · refine ⟨?_, rfl⟩
        simp only
        split <;> simp

/-- Witness of C10: the path /artifactory/repo/sub names the repository repo, and
for the paths with fewer than two segments MigrateFromJfrog panics before any
listing. -/
theorem MigrateFromJfrog_repository_lookup_witness :
    (stringsSplit (stringsTrim "/artifactory/repo/sub" "/") '/')[1]? = some "repo" ∧
    MigrateFromJfrog (exSettings false) (exEnv exFiles allCreated) exCfg "/repo/" none =
      ⟨[], none, none, .panicked⟩ ∧
    MigrateFromJfrog (exSettings false) (exEnv exFiles allCreated) exCfg "/" none =
      ⟨[], none, none, .panicked⟩ ∧
    MigrateFromJfrog (exSettings false) (exEnv exFiles allCreated) exCfg "" none =
      ⟨[], none, none, .panicked⟩ :=
  ⟨(MigrateFromJfrog_repository_lookup (exSettings false) (exEnv exFiles allCreated) exCfg
      "/artifactory/repo/sub" none).2.2.1 "artifactory".data "repo".data "/sub".data
      (by decide) (by decide) (by decide) (by decide),
    (MigrateFromJfrog_repository_lookup (exSettings false) (exEnv exFiles allCreated) exCfg
      "/repo/" none).2.2.2.1 (by decide),
    (MigrateFromJfrog_repository_lookup (exSettings false) (exEnv exFiles allCreated) exCfg
      "/" none).2.2.2.1 (by decide),
    (MigrateFromJfrog_repository_lookup (exSettings false) (exEnv exFiles allCreated) exCfg
      "" none).2.2.2.1 (by decide)⟩

/-- C7: doMigrateJfrogArt returns nil exactly when neither call errored and the
upload status is below 400, ErrFileConflict exactly when neither call errored and
the upload status is 409, and otherwise another non-nil error that wraps the
transport error or carries the status text; the status of the download response
is not consulted. -/
theorem doMigrateJfrogArt_classifies (S : Settings) (E : Env) (hist : List HttpCall)
    (path username password : String) :
    ((doMigrateJfrogArt S E hist path username password).2 = none ↔
      ∃ g r, E.respond hist (downloadCall S path) = .ok g ∧
        E.respond (hist ++ [downloadCall S path])
          (pushCall S E path g.Body username password) = .ok r ∧ r.StatusCode < 400) ∧
    ((doMigrateJfrogArt S E hist path username password).2 = some .ErrFileConflict ↔
      ∃ g r, E.respond hist (downloadCall S path) = .ok g ∧
        E.respond (hist ++ [downloadCall S path])
          (pushCall S E path g.Body username password) = .ok r ∧ r.StatusCode = 409) ∧
    (∀ err, E.respond hist (downloadCall S path) = .error err →
      (doMigrateJfrogArt S E hist path username password).2 =
        some (.Wrap err ("failed to download from " ++ getDownloadUrl S path))) ∧
    (∀ g err, E.respond hist (downloadCall S path) = .ok g →
      E.respond (hist ++ [downloadCall S path])
        (pushCall S E path g.Body username password) = .error err →
      (doMigrateJfrogArt S E hist path username password).2 =
        some (.Wrap err ("failed to push to " ++ getPushUrl S E path))) ∧
    (∀ g r, E.respond hist (downloadCall S path) = .ok g →
      E.respond (hist ++ [downloadCall S path])
        (pushCall S E path g.Body username password) = .ok r →
      400 ≤ r.StatusCode → r.StatusCode ≠ 409 →
      (doMigrateJfrogArt S E hist path username password).2 =
        some (.New ("got an unexpected response status: " ++ r.Status))) ∧
    (∀ code status,
      (doMigrateJfrogArt S (withGetStatus E code status) hist path username password).2 =
        (doMigrateJfrogArt S E hist path username password).2) := by
  unfold doMigrateJfrogArt withGetStatus downloadCall pushCall getPushUrl
  cases hg : E.respond hist (HttpCall.get (getDownloadUrl S path) S.SrcUsername S.SrcPassword) with
  | error e => simp [hg]
  | ok g =>
    cases hp : E.respond
        (hist ++ [HttpCall.get (getDownloadUrl S path) S.SrcUsername S.SrcPassword])
        (HttpCall.put (E.DstHasSubSlash ++ stringsTrim (stringsTrimPrefix path S.Src) "/") ""
          g.Body username password) with
    | error e =>
      simp only [hg, hp]
      refine ⟨?_, ?_, ?_, ?_, ?_, ?_⟩
      · simp only [reduceCtorEq, false_iff, not_exists, not_and]
        intro g1 r1 h1 h2
        cases h1
        rw [hp] at h2
        cases h2
      · simp only [Option.some.injEq, reduceCtorEq, false_iff, not_exists, not_and]
        intro g1 r1 h1 h2
        cases h1
        rw [hp] at h2
        cases h2
      · simp
      · intro g1 err h1 h2
        cases h1
        rw [hp] at h2
        cases h2
        rfl
      · intro g1 r h1 h2
        cases h1
        rw [hp] at h2
        cases h2
      · simp
    | ok r =>
      simp only [hg, hp]
      refine ⟨?_, ?_, ?_, ?_, ?_, ?_⟩
      · constructor
        · intro h
          refine ⟨g, r, rfl, hp, ?_⟩
          by_cases h4 : r.StatusCode ≥ 400
          · by_cases h9 : r.StatusCode = 409 <;> simp [h4, h9] at h
          · omega
        · rintro ⟨g1, r1, h1, h2, h3⟩
          cases h1
          rw [hp] at h2
          cases h2
          have h4 : ¬ r.StatusCode ≥ 400 := by omega
          simp [h4]
      · constructor
        · intro h
          refine ⟨g, r, rfl, hp, ?_⟩
          by_cases h4 : r.StatusCode ≥ 400
          · by_cases h9 : r.StatusCode = 409
            · exact h9
            · simp [h4, h9] at h
          · simp [h4] at h
        · rintro ⟨g1, r1, h1, h2, h3⟩
          cases h1
          rw [hp] at h2
          cases h2
          have h4 : r.StatusCode ≥ 400 := by omega
          simp [h4, h3]
      · simp
      · intro g1 err h1 h2
        cases h1
        rw [hp] at h2
        cases h2
      · intro g1 r1 h1 h2 h4 h9
        cases h1
        rw [hp] at h2
        cases h2
        have h4b : r.StatusCode ≥ 400 := h4
        simp [h4b, h9]
      · simp

/-- Witness of C7: with every download answering 200, the transfer of b.jar whose
upload answers 409 yields the conflict sentinel, and the transfer of a.jar whose
upload answers 201 yields nil. -/
theorem doMigrateJfrogArt_classifies_witness :
    (doMigrateJfrogArt (exSettings false) (exEnv [] conflictAtB) [] "b.jar" "user"
        "secret").2 = some .ErrFileConflict ∧
    (doMigrateJfrogArt (exSettings false) (exEnv [] conflictAtB) [] "a.jar" "user"
        "secret").2 = none :=
  ⟨(doMigrateJfrogArt_classifies (exSettings false) (exEnv [] conflictAtB) [] "b.jar" "user"
      "secret").2.1.mpr ⟨⟨200, "200 OK", "bytes"⟩, ⟨409, "status", ""⟩, rfl, rfl, rfl⟩,
    (doMigrateJfrogArt_classifies (exSettings false) (exEnv [] conflictAtB) [] "a.jar" "user"
      "secret").1.mpr ⟨⟨200, "200 OK", "bytes"⟩, ⟨201, "status", ""⟩, rfl, rfl, by decide⟩⟩

end Carctl
